import Mathlib

/-!
# Verification of the async download-job orchestration core

Shallow embedding of the job service (`apps/api/src/services/job.service.ts`),
the async download route handler (`routes/download.routes.ts`), the worker's
terminal-event handlers (`worker.ts`), and the Redis key/value primitives they
use (`lib/redis.ts`).  All state-bearing Redis structures (job hashes, the
idempotency index, per-user counters, the `jobs:processing` sorted set, the
pub/sub channel and the BullMQ queue) are modelled explicitly; each service
function becomes a pure state transformer.
-/

/-! ## JS numeric string primitives

The service stores every numeric field as a string (`String(x)` in JS) and
decodes with `parseInt(x, 10)`.  We model `String(n)` for a non-negative
number as its canonical decimal rendering and `parseInt` as a full-string
digit parse.  On the canonical decimal strings this service ever writes the
two models agree exactly with JS (JS `parseInt` would additionally accept a
sign, surrounding junk after digits, etc., which never arises here; `parseInt`
of a non-numeric string yields `NaN` in JS, modelled as `none`). -/

def digitToChar (d : Nat) : Char :=
  Char.ofNat (48 + min d 9)

def charToDigit (c : Char) : Option Nat :=
  if 48 ≤ c.toNat ∧ c.toNat ≤ 57 then some (c.toNat - 48) else none

def natToDecDigitsAux : Nat → Nat → List Char
  | 0, _ => []
  | fuel + 1, n =>
    if n < 10 then [digitToChar n]
    else natToDecDigitsAux fuel (n / 10) ++ [digitToChar (n % 10)]

def natToDecDigits (n : Nat) : List Char := natToDecDigitsAux (n + 1) n

/-- Model of JS `String(n)` for a non-negative number `n`. -/
def jsStringOfNat (n : Nat) : String := String.mk (natToDecDigits n)

def decDigitsToNat (cs : List Char) : Nat :=
  List.foldl (fun a c => a * 10 + (charToDigit c).getD 0) 0 cs

/-- Model of JS `parseInt(s, 10)` on the canonical non-negative decimal
strings produced by this service (`none` = `NaN`). -/
def jsParseNat (s : String) : Option Nat :=
  if s.data = [] then none
  else if s.data.all (fun c => (charToDigit c).isSome) then
    some (decDigitsToNat s.data)
  else none

/-- `parseInt` as used at the decode boundary; a `NaN` never arises on the
strings this service writes, we default it to `0`. -/
def jsParseNatD (s : String) : Nat := (jsParseNat s).getD 0

/-- Model of JS `String(b)` for a boolean. -/
def jsStringOfBool (b : Bool) : String := if b then "true" else "false"

/-- Model of the JS truthiness coercion `s || null` on a string. -/
def strOrNone (s : String) : Option String := if s = "" then none else some s

theorem charToDigit_digitToChar (d : Nat) (h : d < 10) :
    charToDigit (digitToChar d) = some d := by
  interval_cases d <;> decide

theorem decDigitsToNat_append (cs : List Char) (c : Char) :
    decDigitsToNat (cs ++ [c]) = (decDigitsToNat cs) * 10 + (charToDigit c).getD 0 := by
  simp [decDigitsToNat, List.foldl_append]

theorem natToDecDigitsAux_spec (fuel : Nat) : ∀ n : Nat, n < fuel →
    natToDecDigitsAux fuel n ≠ [] ∧
    (natToDecDigitsAux fuel n).all (fun c => (charToDigit c).isSome) = true ∧
    decDigitsToNat (natToDecDigitsAux fuel n) = n := by
  induction fuel with
  | zero => intro n hn; omega
  | succ fuel ih =>
    intro n hn
    by_cases h : n < 10
    · simp [natToDecDigitsAux, h, charToDigit_digitToChar n h, decDigitsToNat]
    · have hd : n / 10 < n := Nat.div_lt_self (by omega) (by omega)
      have hm : n % 10 < 10 := Nat.mod_lt _ (by omega)
      obtain ⟨ih1, ih2, ih3⟩ := ih (n / 10) (by omega)
      refine ⟨by simp [natToDecDigitsAux, h], ?_, ?_⟩
      · simp only [natToDecDigitsAux, if_neg h, List.all_append]
        rw [ih2]
        simp [charToDigit_digitToChar _ hm]
      · simp only [natToDecDigitsAux, if_neg h]
        rw [decDigitsToNat_append, ih3, charToDigit_digitToChar _ hm]
        simp only [Option.getD_some]
        omega

theorem natToDecDigits_ne_nil (n : Nat) : natToDecDigits n ≠ [] :=
  (natToDecDigitsAux_spec (n + 1) n (by omega)).1

theorem natToDecDigits_all_digits (n : Nat) :
    (natToDecDigits n).all (fun c => (charToDigit c).isSome) = true :=
  (natToDecDigitsAux_spec (n + 1) n (by omega)).2.1

theorem decDigitsToNat_natToDecDigits (n : Nat) :
    decDigitsToNat (natToDecDigits n) = n :=
  (natToDecDigitsAux_spec (n + 1) n (by omega)).2.2

/-- The decimal encode/parse pair is lossless: `parseInt(String(n), 10) = n`. -/
theorem jsParseNat_jsStringOfNat (n : Nat) : jsParseNat (jsStringOfNat n) = some n := by
  unfold jsParseNat jsStringOfNat
  have hne : natToDecDigits n ≠ [] := natToDecDigits_ne_nil n
  have hall := natToDecDigits_all_digits n
  simp only [String.data]
  rw [if_neg hne, if_pos hall, decDigitsToNat_natToDecDigits]

theorem jsParseNatD_jsStringOfNat (n : Nat) : jsParseNatD (jsStringOfNat n) = n := by
  simp [jsParseNatD, jsParseNat_jsStringOfNat]

/-! ## String-keyed association maps (the Redis key space)

`aset` models a Redis `SET`/`HSET` overwrite (most recent binding wins),
`adel` models `DEL`, `alookup` models `GET`/`HGETALL`.  The `jobs:processing`
sorted set gets its own `zadd`/`zrem` (a `ZADD` of an existing member
overwrites its score, so the member list stays duplicate-free). -/

def alookup {α : Type} (l : List (String × α)) (k : String) : Option α :=
  (l.find? (fun p => p.1 = k)).map (fun p => p.2)

def aset {α : Type} (l : List (String × α)) (k : String) (v : α) : List (String × α) :=
  (k, v) :: l

def adel {α : Type} (l : List (String × α)) (k : String) : List (String × α) :=
  l.filter (fun p => p.1 ≠ k)

def zadd (l : List (String × Nat)) (score : Nat) (member : String) : List (String × Nat) :=
  (member, score) :: l.filter (fun p => p.1 ≠ member)

def zrem (l : List (String × Nat)) (member : String) : List (String × Nat) :=
  l.filter (fun p => p.1 ≠ member)

/-! ## Data model (`job.service.ts`)

`RedisJobHash` is the string-encoded hash stored under `job:{jobId}`;
`JobData` is the native-typed record the service decodes it to.  Timestamps
(`Date.now()`) and numeric fields are non-negative JS numbers, modelled as
`Nat`. -/

structure RedisJobHash where
  id : String
  fileId : String
  userId : String
  status : String
  progress : String
  downloadUrl : String
  error : String
  canRetry : String
  attempts : String
  createdAt : String
  updatedAt : String
deriving DecidableEq, Repr

/-- `HSET` on an absent key creates the hash from scratch; unsupplied fields
are then missing, which at the decode boundary behaves like the empty string
(JS `undefined` is falsy and parses to `NaN`, exactly as `""` does).  We model
a missing hash field as `""`. -/
def emptyJobHash : RedisJobHash :=
  { id := "", fileId := "", userId := "", status := "", progress := ""
  , downloadUrl := "", error := "", canRetry := "", attempts := ""
  , createdAt := "", updatedAt := "" }

/-- Native-typed job record (`JobData` in `job.service.ts`).  The source casts
`status` with `as JobStatus` without validating, so we keep it a string. -/
structure JobData where
  id : String
  fileId : Nat
  userId : String
  status : String
  progress : Nat
  downloadUrl : Option String
  error : Option String
  canRetry : Bool
  attempts : Nat
  createdAt : Nat
  updatedAt : Nat
deriving DecidableEq, Repr

/-- The optional `additionalData` argument of `updateJobStatus`. -/
structure JobStatusExtra where
  progress : Option Nat := none
  downloadUrl : Option String := none
  error : Option String := none
  canRetry : Option Bool := none
  attempts : Option Nat := none
deriving DecidableEq, Repr

/-- A payload published on the per-job update channel (`redis.publish`);
fields the caller did not supply are absent from the JSON. -/
structure JobEvent where
  status : Option String := none
  progress : Option Nat := none
  downloadUrl : Option String := none
  error : Option String := none
  canRetry : Option Bool := none
  attempts : Option Nat := none
deriving DecidableEq, Repr

/-- A BullMQ queue entry (`DownloadJobData` in `lib/queue.ts`). -/
structure QueueEntry where
  jobId : String
  fileId : Nat
  userId : String
  idempotencyKey : Option String
  createdAt : Nat
deriving DecidableEq, Repr

/-- The shared Redis state plus the work queue.  `events` collects published
pub/sub payloads (most recent first); `queue` collects enqueued BullMQ jobs
(most recent first). -/
structure SysState where
  jobs : List (String × RedisJobHash)
  idem : List (String × String)
  counters : List (String × Int)
  processing : List (String × Nat)
  queue : List QueueEntry
  events : List JobEvent
deriving DecidableEq, Repr

def emptySysState : SysState :=
  { jobs := [], idem := [], counters := [], processing := [], queue := [], events := [] }

/-! ## Job service (`job.service.ts`), one definition per exported function -/

/-- The string-encoding object literal passed to `redis.hset` by `createJob`:
numbers via `String(x)`, `null` via `?? ""`, the boolean via `String(b)`. -/
def encodeJobData (job : JobData) : RedisJobHash :=
  { id := job.id
  , fileId := jsStringOfNat job.fileId
  , userId := job.userId
  , status := job.status
  , progress := jsStringOfNat job.progress
  , downloadUrl := job.downloadUrl.getD ""
  , error := job.error.getD ""
  , canRetry := jsStringOfBool job.canRetry
  , attempts := jsStringOfNat job.attempts
  , createdAt := jsStringOfNat job.createdAt
  , updatedAt := jsStringOfNat job.updatedAt }

/-- `createJob(jobId, fileId, userId)`: constructs the native `job` record,
writes its string encoding as the job hash, and returns `job`.  The `EXPIRE`
call (TTL) has no observable effect in this time-free model and is not
represented. -/
def createJob (st : SysState) (jobId : String) (fileId : Nat) (userId : String)
    (now : Nat) : JobData × SysState :=
  let job : JobData :=
    { id := jobId
    , fileId := fileId
    , userId := userId
    , status := "queued"
    , progress := 0
    , downloadUrl := none
    , error := none
    , canRetry := false
    , attempts := 0
    , createdAt := now
    , updatedAt := now }
  (job, { st with jobs := aset st.jobs jobId (encodeJobData job) })

/-- The decode half of `getJob`. -/
def decodeJobHash (h : RedisJobHash) : JobData :=
  { id := h.id
  , fileId := jsParseNatD h.fileId
  , userId := h.userId
  , status := h.status
  , progress := jsParseNatD h.progress
  , downloadUrl := strOrNone h.downloadUrl
  , error := strOrNone h.error
  , canRetry := h.canRetry = "true"
  , attempts := jsParseNatD h.attempts
  , createdAt := jsParseNatD h.createdAt
  , updatedAt := jsParseNatD h.updatedAt }

/-- `getJob(jobId)`: `HGETALL` returns `{}` exactly when the key is absent. -/
def getJob (st : SysState) (jobId : String) : Option JobData :=
  (alookup st.jobs jobId).map decodeJobHash

/-- The field merge `redis.hset(key, updates)` performed by
`updateJobStatus`: `status` and `updatedAt` always, each additional field only
when supplied. -/
def applyStatusUpdates (h : RedisJobHash) (status : String) (extra : JobStatusExtra)
    (now : Nat) : RedisJobHash :=
  { h with
    status := status
  , updatedAt := jsStringOfNat now
  , progress := match extra.progress with
      | some p => jsStringOfNat p
      | none => h.progress
  , downloadUrl := match extra.downloadUrl with
      | some u => u
      | none => h.downloadUrl
  , error := match extra.error with
      | some e => e
      | none => h.error
  , canRetry := match extra.canRetry with
      | some b => jsStringOfBool b
      | none => h.canRetry
  , attempts := match extra.attempts with
      | some a => jsStringOfNat a
      | none => h.attempts }

/-- `updateJobStatus(jobId, status, additionalData?)`: merges the updates into
the job hash and publishes `{ status, ...additionalData }` on the job's
channel. -/
def updateJobStatus (st : SysState) (jobId : String) (status : String)
    (extra : JobStatusExtra) (now : Nat) : SysState :=
  let old := (alookup st.jobs jobId).getD emptyJobHash
  let ev : JobEvent :=
    { status := some status
    , progress := extra.progress
    , downloadUrl := extra.downloadUrl
    , error := extra.error
    , canRetry := extra.canRetry
    , attempts := extra.attempts }
  { st with
    jobs := aset st.jobs jobId (applyStatusUpdates old status extra now)
  , events := ev :: st.events }

/-- `updateJobProgress(jobId, progress)`: stores `progress` and `updatedAt`
unconditionally and publishes `{ progress, status: "processing" }`. -/
def updateJobProgress (st : SysState) (jobId : String) (progress : Nat)
    (now : Nat) : SysState :=
  let old := (alookup st.jobs jobId).getD emptyJobHash
  { st with
    jobs := aset st.jobs jobId
      { old with progress := jsStringOfNat progress, updatedAt := jsStringOfNat now }
  , events := { progress := some progress, status := some "processing" } :: st.events }

/-- `markJobProcessing(jobId)`: `updateJobStatus(jobId, "processing",
{ progress: 0 })`, then `ZADD jobs:processing Date.now() jobId`.  Both
`Date.now()` reads fall in the same tick, modelled as one `now`. -/
def markJobProcessing (st : SysState) (jobId : String) (now : Nat) : SysState :=
  let st1 := updateJobStatus st jobId "processing" { progress := some 0 } now
  { st1 with processing := zadd st1.processing now jobId }

/-- `markJobCompleted(jobId, downloadUrl)`: `updateJobStatus(jobId,
"completed", { progress: 100, downloadUrl })`, then `ZREM` from
`jobs:processing`. -/
def markJobCompleted (st : SysState) (jobId : String) (downloadUrl : String)
    (now : Nat) : SysState :=
  let st1 := updateJobStatus st jobId "completed"
    { progress := some 100, downloadUrl := some downloadUrl } now
  { st1 with processing := zrem st1.processing jobId }

/-- `markJobFailed(jobId, error, canRetry = true, attempts?)`. -/
def markJobFailed (st : SysState) (jobId : String) (error : String)
    (canRetry : Bool) (attempts : Option Nat) (now : Nat) : SysState :=
  let st1 := updateJobStatus st jobId "failed"
    { error := some error, canRetry := some canRetry, attempts := attempts } now
  { st1 with processing := zrem st1.processing jobId }

/-- `checkIdempotencyKey(idempotencyKey)`. -/
def checkIdempotencyKey (st : SysState) (idempotencyKey : String) : Option String :=
  alookup st.idem idempotencyKey

/-- `setIdempotencyKey(idempotencyKey, jobId)` (TTL not represented). -/
def setIdempotencyKey (st : SysState) (idempotencyKey : String) (jobId : String) : SysState :=
  { st with idem := aset st.idem idempotencyKey jobId }

/-- `checkUserRateLimit(userId)`: reads the counter (`parseInt(str ?? "0")`)
and returns `(allowed, activeJobs)` with `allowed = activeJobs < max`. -/
def checkUserRateLimit (st : SysState) (userId : String) (maxConc : Int) : Bool × Int :=
  let activeJobs := (alookup st.counters userId).getD 0
  (activeJobs < maxConc, activeJobs)

/-- `incrementUserActiveJobs(userId)`: `INCR` (absent key counts as 0; the
safety `EXPIRE` is not represented). -/
def incrementUserActiveJobs (st : SysState) (userId : String) : SysState :=
  { st with counters := aset st.counters userId ((alookup st.counters userId).getD 0 + 1) }

/-- `decrementUserActiveJobs(userId)`: `DECR`, then `DEL` when the result is
`≤ 0` (the defensive floor). -/
def decrementUserActiveJobs (st : SysState) (userId : String) : SysState :=
  let current := (alookup st.counters userId).getD 0 - 1
  if current ≤ 0 then { st with counters := adel st.counters userId }
  else { st with counters := aset st.counters userId current }

/-- `getStuckJobs(stuckThresholdMs)`: `ZRANGEBYSCORE jobs:processing 0
(Date.now() - stuckThresholdMs)`; the bound is computed in `Int` because the
JS subtraction can go negative. -/
def getStuckJobs (st : SysState) (now : Nat) (stuckThresholdMs : Nat) : List String :=
  (st.processing.filter
    (fun p => (p.2 : Int) ≤ (now : Int) - (stuckThresholdMs : Int))).map (fun p => p.1)

/-! ## Route layer (`routes/download.routes.ts`) -/

/-- `getUserId(c)`: `x-user-id ?? x-forwarded-for?.split(",")[0]?.trim() ??
x-real-ip ?? "anonymous"` (`??` skips only absent headers; a present but
empty `x-forwarded-for` still short-circuits in JS, as here). -/
def getUserId (xUserId xForwardedFor xRealIp : Option String) : String :=
  match xUserId with
  | some u => u
  | none =>
    match xForwardedFor with
    | some s => (((s.splitOn ",").headD "").trim)
    | none =>
      match xRealIp with
      | some r => r
      | none => "anonymous"

/-- The three `c.json` results of the `POST /v1/download` handler: 200 replay
of an existing job, 202 creation, 429 rate-limited. -/
inductive DlResponse where
  | replay (jobId : String) (fileId : Nat) (status : String) (isNew : Bool) (createdAt : Nat)
  | created (jobId : String) (fileId : Nat) (isNew : Bool) (createdAt : Nat)
  | rateLimited
deriving DecidableEq, Repr

/-- `addDownloadJob` (`lib/queue.ts`): appends the payload to the queue. -/
def addDownloadJob (st : SysState) (e : QueueEntry) : SysState :=
  { st with queue := e :: st.queue }

/-- The creation tail of the async download handler: rate-limit check, then
`createJob`, `setIdempotencyKey` (when a key was sent),
`incrementUserActiveJobs`, `addDownloadJob`.  `freshJobId` stands for the
`crypto.randomUUID()` result. -/
def asyncDownloadCreate (st : SysState) (userId : String) (fileId : Nat)
    (idemKey : Option String) (freshJobId : String) (now : Nat) (maxConc : Int) :
    DlResponse × SysState :=
  let rateLimit := checkUserRateLimit st userId maxConc
  if rateLimit.1 = false then (DlResponse.rateLimited, st)
  else
    let st1 := (createJob st freshJobId fileId userId now).2
    let st2 := match idemKey with
      | some k => setIdempotencyKey st1 k freshJobId
      | none => st1
    let st3 := incrementUserActiveJobs st2 userId
    let st4 := addDownloadJob st3
      { jobId := freshJobId, fileId := fileId, userId := userId
      , idempotencyKey := idemKey, createdAt := now }
    (DlResponse.created freshJobId fileId true now, st4)

/-- The `POST /v1/download` handler: idempotency replay first (only when the
key maps to a job id whose record still exists), otherwise the creation
tail. -/
def asyncDownloadHandler (st : SysState) (fileId : Nat) (idemKey : Option String)
    (xUserId xForwardedFor xRealIp : Option String) (freshJobId : String)
    (now : Nat) (maxConc : Int) : DlResponse × SysState :=
  let userId := getUserId xUserId xForwardedFor xRealIp
  let existing : Option JobData :=
    match idemKey with
    | none => none
    | some k =>
      match checkIdempotencyKey st k with
      | none => none
      | some existingJobId => getJob st existingJobId
  match existing with
  | some job =>
    (DlResponse.replay job.id job.fileId
      (if job.status = "queued" then "queued" else "processing") false job.createdAt, st)
  | none => asyncDownloadCreate st userId fileId idemKey freshJobId now maxConc

/-! ## Worker terminal-event handlers (`worker.ts`) -/

/-- `worker.on("completed")`: decrements the owner's active-job counter. -/
def workerOnCompleted (st : SysState) (userId : String) : SysState :=
  decrementUserActiveJobs st userId

/-- `worker.on("failed")`: marks the job failed with
`canRetry = attemptsLeft > 0` and decrements the counter only on final
(non-retryable) failure. -/
def workerOnFailed (st : SysState) (jobId : String) (userId : String)
    (errMessage : String) (attemptsMade maxAttempts : Nat) (now : Nat) : SysState :=
  let canRetry := decide (0 < maxAttempts - attemptsMade)
  let st1 := markJobFailed st jobId errMessage canRetry (some attemptsMade) now
  if canRetry then st1 else decrementUserActiveJobs st1 userId

/-- The full completion path for a job: the worker's `processDownloadJob`
calls `markJobCompleted`, and the `completed` event handler then decrements
the owner's counter. -/
def completionPath (st : SysState) (jobId : String) (downloadUrl : String)
    (userId : String) (now : Nat) : SysState :=
  workerOnCompleted (markJobCompleted st jobId downloadUrl now) userId

/-! ## Watchdog -/

/-- Modelled from the spec: the repository's `src/` contains only the
stuck-job selection (`getStuckJobs` in `job.service.ts`); the Watchdog sweep
loop that consumes it is described in the spec (§4.5) but not present in the
source.  Per the spec, each stuck job is re-enqueued and reset to `queued`
with `attemptCount+1`, or — if `attemptCount` already reached the maximum —
force-transitioned to `failed` with `retryable=false`, releasing the owner's
Concurrency Counter. -/
def watchdogHandleStuck (maxAttempts : Nat) (now : Nat) (st : SysState)
    (jobId : String) : SysState :=
  match alookup st.jobs jobId with
  | none => st
  | some h =>
    let attempts := jsParseNatD h.attempts
    if attempts ≥ maxAttempts then
      decrementUserActiveJobs
        (markJobFailed st jobId "stuck in processing beyond threshold" false none now)
        h.userId
    else
      let st1 := updateJobStatus st jobId "queued" { attempts := some (attempts + 1) } now
      let st2 := { st1 with processing := zrem st1.processing jobId }
      addDownloadJob st2
        { jobId := jobId, fileId := jsParseNatD h.fileId, userId := h.userId
        , idempotencyKey := none, createdAt := now }

/-- Modelled from the spec: one Watchdog sweep — select with the source's
`getStuckJobs`, then handle each stuck job as §4.5 prescribes. -/
def watchdogSweep (st : SysState) (now : Nat) (stuckThresholdMs : Nat)
    (maxAttempts : Nat) : SysState :=
  List.foldl (watchdogHandleStuck maxAttempts now) st (getStuckJobs st now stuckThresholdMs)

/-! ## Map lemmas -/

theorem alookup_aset_self {α : Type} (l : List (String × α)) (k : String) (v : α) :
    alookup (aset l k v) k = some v := by
  simp [alookup, aset, List.find?]

theorem alookup_aset_ne {α : Type} (l : List (String × α)) (k k' : String) (v : α)
    (h : k' ≠ k) : alookup (aset l k v) k' = alookup l k' := by
  unfold alookup aset
  rw [List.find?_cons_of_neg]
  simp only [decide_eq_true_eq]
  exact fun hh => h hh.symm

theorem find?_filterKeyNe_self {α : Type} (l : List (String × α)) (k : String) :
    List.find? (fun p => p.1 = k) (l.filter (fun p => p.1 ≠ k)) = none := by
  induction l with
  | nil => rfl
  | cons p l ih =>
    rw [List.filter_cons]
    by_cases hp : p.1 = k
    · rw [if_neg (by simp [hp])]
      exact ih
    · rw [if_pos (by simp [hp]), List.find?_cons_of_neg _ (by simp [hp])]
      exact ih

theorem find?_filterKeyNe_ne {α : Type} (l : List (String × α)) (k k' : String)
    (h : k' ≠ k) :
    List.find? (fun p => p.1 = k') (l.filter (fun p => p.1 ≠ k)) =
      List.find? (fun p => p.1 = k') l := by
  induction l with
  | nil => rfl
  | cons p l ih =>
    rw [List.filter_cons]
    by_cases hp : p.1 = k'
    · have hpk : p.1 ≠ k := by rw [hp]; exact h
      rw [if_pos (by simp [hpk]), List.find?_cons_of_pos _ (by simp [hp]),
        List.find?_cons_of_pos _ (by simp [hp])]
    · by_cases hpk : p.1 = k
      · rw [if_neg (by simp [hpk]), ih, List.find?_cons_of_neg _ (by simp [hp])]
      · rw [if_pos (by simp [hpk]), List.find?_cons_of_neg _ (by simp [hp]),
          List.find?_cons_of_neg _ (by simp [hp])]
        exact ih

theorem alookup_adel_self {α : Type} (l : List (String × α)) (k : String) :
    alookup (adel l k) k = none := by
  unfold alookup adel
  rw [find?_filterKeyNe_self]
  rfl

theorem alookup_adel_ne {α : Type} (l : List (String × α)) (k k' : String)
    (h : k' ≠ k) : alookup (adel l k) k' = alookup l k' := by
  unfold alookup adel
  rw [find?_filterKeyNe_ne l k k' h]

/-! ## Shared helper lemmas about the service functions -/

/-- Encode-then-decode is lossless for the record `createJob` constructs. -/
theorem getJob_createJob (st : SysState) (jobId : String) (fileId : Nat)
    (userId : String) (now : Nat) :
    getJob (createJob st jobId fileId userId now).2 jobId
      = some (createJob st jobId fileId userId now).1 := by
  simp only [createJob, getJob]
  rw [alookup_aset_self]
  simp only [Option.map_some']
  simp [decodeJobHash, encodeJobData, jsParseNatD_jsStringOfNat, strOrNone, jsStringOfBool]

theorem getJob_updateJobStatus (st : SysState) (jobId : String) (status : String)
    (extra : JobStatusExtra) (now : Nat) :
    getJob (updateJobStatus st jobId status extra now) jobId
      = some (decodeJobHash (applyStatusUpdates
          ((alookup st.jobs jobId).getD emptyJobHash) status extra now)) := by
  simp only [updateJobStatus, getJob]
  rw [alookup_aset_self]
  rfl

/-! ## Claims -/

/-- C9: for every jobId, fileId and userId (and creation time), creating a job
string-encodes all fields into the store (null `downloadUrl`/`error` as `""`)
and reading it back with `getJob` returns a record equal to the originally
constructed native-typed record: the encode-then-decode round trip is lossless
for a freshly created job. -/
theorem c9_create_getJob_roundtrip (st : SysState) (jobId : String) (fileId : Nat)
    (userId : String) (now : Nat) :
    getJob (createJob st jobId fileId userId now).2 jobId
      = some (createJob st jobId fileId userId now).1 :=
  getJob_createJob st jobId fileId userId now

/-- C1 counterexample: with J1 processing, `updateJobProgress(J1, 50)` then
`updateJobProgress(J1, 30)` leaves stored progress 30, not 50 — there is no
monotonicity check (nor any clamp) in `updateJobProgress`. -/
theorem c1_counterexample :
    (getJob (updateJobProgress (updateJobProgress
        (markJobProcessing (createJob emptySysState "J1" 70007 "u1" 0).2 "J1" 1)
        "J1" 50 2) "J1" 30 3) "J1").map JobData.progress ≠ some 50 ∧
    (getJob (updateJobProgress (updateJobProgress
        (markJobProcessing (createJob emptySysState "J1" 70007 "u1" 0).2 "J1" 1)
        "J1" 50 2) "J1" 30 3) "J1").map JobData.progress = some 30 := by
  decide

/-- C1 (amended): `updateJobProgress(jobId, percent)` stores `percent`
unconditionally — no clamp to [0,99] and no monotonicity check, so a lower
value overwrites a higher stored one — and publishes a
`{ progress, status: "processing" }` notification. -/
theorem c1_progress_unconditional (st : SysState) (jobId : String)
    (percent now : Nat) :
    ((getJob (updateJobProgress st jobId percent now) jobId).map JobData.progress
      = some percent) ∧
    (updateJobProgress st jobId percent now).events.head?
      = some { progress := some percent, status := some "processing" } := by
  constructor
  · simp only [updateJobProgress, getJob]
    rw [alookup_aset_self]
    simp [decodeJobHash, jsParseNatD_jsStringOfNat]
  · rfl

/-- C2 counterexample: calling `markJobProcessing` on a completed job does
not leave the record unchanged — the terminal status is overwritten to
`processing` and progress from 100 back to 0. -/
theorem c2_counterexample :
    (getJob (markJobProcessing (markJobCompleted
        (markJobProcessing (createJob emptySysState "J1" 7 "u1" 0).2 "J1" 1)
        "J1" "https://s3/7" 2) "J1" 3) "J1").map JobData.status ≠ some "completed" ∧
    (getJob (markJobProcessing (markJobCompleted
        (markJobProcessing (createJob emptySysState "J1" 7 "u1" 0).2 "J1" 1)
        "J1" "https://s3/7" 2) "J1" 3) "J1").map JobData.status = some "processing" ∧
    (getJob (markJobProcessing (markJobCompleted
        (markJobProcessing (createJob emptySysState "J1" 7 "u1" 0).2 "J1" 1)
        "J1" "https://s3/7" 2) "J1" 3) "J1").map JobData.progress = some 0 := by
  decide

/-- C2 (amended): `markJobProcessing` on a job in a terminal state
(`completed`/`failed`) signals no error and cannot crash the caller (it is a
total state transformer), but there is no `InvalidTransition` guard: it
unconditionally overwrites `status` to `processing` and `progress` to 0
(leaving `downloadUrl`/`error` as they were) and re-adds the job to the
processing set. -/
theorem c2_markProcessing_no_guard (st : SysState) (jobId : String) (now : Nat)
    (h : RedisJobHash) (hj : alookup st.jobs jobId = some h)
    (_hterm : h.status = "completed" ∨ h.status = "failed") :
    ((getJob (markJobProcessing st jobId now) jobId).map JobData.status
      = some "processing") ∧
    ((getJob (markJobProcessing st jobId now) jobId).map JobData.progress = some 0) ∧
    ((getJob (markJobProcessing st jobId now) jobId).map JobData.downloadUrl
      = some (strOrNone h.downloadUrl)) ∧
    ((getJob (markJobProcessing st jobId now) jobId).map JobData.error
      = some (strOrNone h.error)) ∧
    (jobId, now) ∈ (markJobProcessing st jobId now).processing := by
  have hget : getJob (markJobProcessing st jobId now) jobId
      = some (decodeJobHash (applyStatusUpdates h "processing"
          { progress := some 0 } now)) := by
    simp only [markJobProcessing, getJob, updateJobStatus]
    rw [alookup_aset_self]
    rw [hj]
    rfl
  refine ⟨?_, ?_, ?_, ?_, ?_⟩
  · rw [hget]; rfl
  · rw [hget]
    simp [decodeJobHash, applyStatusUpdates, jsParseNatD_jsStringOfNat]
  · rw [hget]; rfl
  · rw [hget]; rfl
  · simp [markJobProcessing, zadd]

/-- C2 witness: the amended theorem applied to a concrete completed job. -/
theorem c2_witness :
    ((getJob (markJobProcessing (markJobCompleted
        (markJobProcessing (createJob emptySysState "J1" 7 "u1" 0).2 "J1" 1)
        "J1" "https://s3/7" 2) "J1" 3) "J1").map JobData.status
      = some "processing") ∧
    ((getJob (markJobProcessing (markJobCompleted
        (markJobProcessing (createJob emptySysState "J1" 7 "u1" 0).2 "J1" 1)
        "J1" "https://s3/7" 2) "J1" 3) "J1").map JobData.progress = some 0) := by
  have hbase := c2_markProcessing_no_guard
    (markJobCompleted (markJobProcessing (createJob emptySysState "J1" 7 "u1" 0).2
      "J1" 1) "J1" "https://s3/7" 2) "J1" 3
    (applyStatusUpdates (applyStatusUpdates (encodeJobData
        (createJob emptySysState "J1" 7 "u1" 0).1) "processing"
        { progress := some 0 } 1) "completed"
        { progress := some 100, downloadUrl := some "https://s3/7" } 2)
    (by decide) (Or.inl (by decide))
  exact ⟨hbase.1, hbase.2.1⟩

/-- C3 counterexample: `markJobCompleted` (with the worker's `completed`
handler) is not a no-op on an already-completed job — re-invoking the
completion path changes the state again (it re-publishes a completion event,
bumps `updatedAt` and decrements the owner's counter once more). -/
theorem c3_counterexample :
    completionPath (completionPath
        (markJobProcessing (createJob emptySysState "J1" 7 "u1" 0).2 "J1" 1)
        "J1" "https://s3/7" "u1" 2)
      "J1" "https://s3/7" "u1" 3
    ≠ completionPath
        (markJobProcessing (createJob emptySysState "J1" 7 "u1" 0).2 "J1" 1)
        "J1" "https://s3/7" "u1" 2 := by
  decide

/-- C3 (amended): the completion path (`markJobCompleted` followed by the
worker's `completed`-event decrement) sets status `completed` and progress
100, stores the result locator, removes the job id from the processing set,
publishes a completion notification, and floor-decrements the owner's
counter.  It is not idempotent: re-invoking it on an already-completed job
re-applies the writes, publishes again and decrements again rather than
being a no-op. -/
theorem c3_completion_path (st : SysState) (jobId userId downloadUrl : String)
    (now : Nat) (maxConc : Int) (hurl : downloadUrl ≠ "") :
    ((getJob (completionPath st jobId downloadUrl userId now) jobId).map
      JobData.status = some "completed") ∧
    ((getJob (completionPath st jobId downloadUrl userId now) jobId).map
      JobData.progress = some 100) ∧
    ((getJob (completionPath st jobId downloadUrl userId now) jobId).map
      JobData.downloadUrl = some (some downloadUrl)) ∧
    jobId ∉ (completionPath st jobId downloadUrl userId now).processing.map Prod.fst ∧
    (completionPath st jobId downloadUrl userId now).events.head?
      = some { status := some "completed", progress := some 100
             , downloadUrl := some downloadUrl } ∧
    (checkUserRateLimit (completionPath st jobId downloadUrl userId now)
        userId maxConc).2
      = max ((checkUserRateLimit st userId maxConc).2 - 1) 0 := by
  have hget : getJob (completionPath st jobId downloadUrl userId now) jobId
      = some (decodeJobHash (applyStatusUpdates
          ((alookup st.jobs jobId).getD emptyJobHash) "completed"
          { progress := some 100, downloadUrl := some downloadUrl } now)) := by
    simp only [completionPath, workerOnCompleted, decrementUserActiveJobs,
      markJobCompleted, updateJobStatus, getJob]
    split <;> (rw [alookup_aset_self]; rfl)
  refine ⟨?_, ?_, ?_, ?_, ?_, ?_⟩
  · rw [hget]; rfl
  · rw [hget]
    simp [decodeJobHash, applyStatusUpdates, jsParseNatD_jsStringOfNat]
  · rw [hget]
    simp [decodeJobHash, applyStatusUpdates, strOrNone, hurl]
  · simp only [completionPath, workerOnCompleted, decrementUserActiveJobs,
      markJobCompleted]
    split <;>
      (simp only [List.mem_map, not_exists]
       rintro ⟨m, s⟩ ⟨hm, hfst⟩
       have hne := (List.mem_filter.mp hm).2
       simp only [ne_eq, decide_not, Bool.not_eq_true', decide_eq_false_iff_not] at hne
       exact hne hfst)
  · simp only [completionPath, workerOnCompleted, decrementUserActiveJobs,
      markJobCompleted, updateJobStatus]
    split <;> rfl
  · simp only [completionPath, workerOnCompleted, checkUserRateLimit,
      decrementUserActiveJobs, markJobCompleted, updateJobStatus]
    split
    · rename_i hle
      rw [alookup_adel_self]
      simp only [Option.getD_none]
      omega
    · rename_i hgt
      rw [alookup_aset_self]
      simp only [Option.getD_some]
      omega

/-- C3 witness: the amended theorem applied to a concrete processing job. -/
theorem c3_witness :
    ((getJob (completionPath
        (markJobProcessing (createJob emptySysState "J1" 7 "u1" 0).2 "J1" 1)
        "J1" "https://s3/7" "u1" 2) "J1").map JobData.status = some "completed") ∧
    ((getJob (completionPath
        (markJobProcessing (createJob emptySysState "J1" 7 "u1" 0).2 "J1" 1)
        "J1" "https://s3/7" "u1" 2) "J1").map JobData.progress = some 100) := by
  have hbase := c3_completion_path
    (markJobProcessing (createJob emptySysState "J1" 7 "u1" 0).2 "J1" 1)
    "J1" "u1" "https://s3/7" 2 3 (by decide)
  exact ⟨hbase.1, hbase.2.1⟩

/-! ## Mutator sequences (for the result-field invariant, C7) -/

/-- One invocation of an Orchestrator mutator against a fixed job, as the
worker callback performs them. -/
inductive MutOp where
  | processing (now : Nat)
  | progressUpd (percent : Nat) (now : Nat)
  | complete (downloadUrl : String) (now : Nat)
  | fail (error : String) (canRetry : Bool) (attempts : Option Nat) (now : Nat)
deriving DecidableEq, Repr

def applyMut (jobId : String) (st : SysState) : MutOp → SysState
  | MutOp.processing now => markJobProcessing st jobId now
  | MutOp.progressUpd p now => updateJobProgress st jobId p now
  | MutOp.complete url now => markJobCompleted st jobId url now
  | MutOp.fail e c a now => markJobFailed st jobId e c a now

/-- The worker always supplies a non-empty presigned URL on completion and a
non-empty `err.message` on failure. -/
def mutOpOk : MutOp → Bool
  | MutOp.complete url _ => !(url == "")
  | MutOp.fail e _ _ _ => !(e == "")
  | _ => true

/-- Stored-hash form of the result-field invariant. -/
def resultFieldsInv (h : RedisJobHash) : Prop :=
  (h.status = "completed" → h.downloadUrl ≠ "") ∧
  (h.status = "failed" → h.error ≠ "")

theorem applyMut_resultFieldsInv (st : SysState) (jobId : String) (op : MutOp)
    (hop : mutOpOk op = true)
    (hinv : ∀ h, alookup st.jobs jobId = some h → resultFieldsInv h) :
    ∀ h', alookup (applyMut jobId st op).jobs jobId = some h' → resultFieldsInv h' := by
  cases op with
  | processing now =>
    intro h' hh'
    simp only [applyMut, markJobProcessing, updateJobStatus] at hh'
    rw [alookup_aset_self] at hh'
    cases hh'
    refine ⟨fun hc => ?_, fun hc => ?_⟩ <;>
      (simp only [applyStatusUpdates] at hc; exact absurd hc (by decide))
  | progressUpd p now =>
    intro h' hh'
    simp only [applyMut, updateJobProgress] at hh'
    rw [alookup_aset_self] at hh'
    cases hh'
    cases hold : alookup st.jobs jobId with
    | none =>
      refine ⟨fun hc => ?_, fun hc => ?_⟩ <;>
        (simp only [Option.getD_none, emptyJobHash] at hc
         exact absurd hc (by decide))
    | some h =>
      obtain ⟨h1, h2⟩ := hinv h hold
      refine ⟨fun hc => ?_, fun hc => ?_⟩
      · simp only [Option.getD_some] at hc ⊢
        exact h1 hc
      · simp only [Option.getD_some] at hc ⊢
        exact h2 hc
  | complete url now =>
    intro h' hh'
    simp only [applyMut, markJobCompleted, updateJobStatus] at hh'
    rw [alookup_aset_self] at hh'
    cases hh'
    have hu : url ≠ "" := by simpa [mutOpOk] using hop
    refine ⟨fun _ => ?_, fun hc => ?_⟩
    · exact hu
    · simp only [applyStatusUpdates] at hc
      exact absurd hc (by decide)
  | fail e c a now =>
    intro h' hh'
    simp only [applyMut, markJobFailed, updateJobStatus] at hh'
    rw [alookup_aset_self] at hh'
    cases hh'
    have he : e ≠ "" := by simpa [mutOpOk] using hop
    refine ⟨fun hc => ?_, fun _ => ?_⟩
    · simp only [applyStatusUpdates] at hc
      exact absurd hc (by decide)
    · exact he

theorem foldl_applyMut_resultFieldsInv (jobId : String) (ops : List MutOp)
    (hops : ∀ op ∈ ops, mutOpOk op = true) :
    ∀ st : SysState, (∀ h, alookup st.jobs jobId = some h → resultFieldsInv h) →
      ∀ h', alookup (List.foldl (applyMut jobId) st ops).jobs jobId = some h' →
        resultFieldsInv h' := by
  induction ops with
  | nil => intro st hinv h' hh'; exact hinv h' hh'
  | cons op ops ih =>
    intro st hinv h' hh'
    exact ih (fun o ho => hops o (List.mem_cons_of_mem op ho))
      (applyMut jobId st op)
      (applyMut_resultFieldsInv st jobId op (hops op (List.mem_cons_self op ops)) hinv)
      h' hh'

/-- C7 counterexample: a job that fails retryably on attempt 1 (so `error` is
stored) and succeeds on attempt 2 ends `completed` with BOTH `downloadUrl`
and `error` non-null — the mutators never clear the opposite result field, so
"never both non-null" is false on a reachable record. -/
theorem c7_counterexample :
    (getJob (markJobCompleted (markJobProcessing (markJobFailed
        (markJobProcessing (createJob emptySysState "J1" 7 "u1" 0).2 "J1" 1)
        "J1" "network error" true (some 1) 2) "J1" 3) "J1" "https://s3/7" 4)
      "J1").map (fun j => decide (j.status = "completed") &&
        j.downloadUrl.isSome && j.error.isSome)
      = some true := by
  decide

/-- C7 (amended): along any sequence of mutator invocations that carry a
non-empty result locator on completion and a non-empty reason on failure (as
the worker's do), a job record created by `createJob` always satisfies
`status == completed → downloadUrl != null` and `status == failed → error !=
null`.  (The "never both non-null" half of the original claim is false: the
opposite result field is never cleared, see the counterexample.) -/
theorem c7_result_fields (st : SysState) (jobId : String) (fileId : Nat)
    (userId : String) (t0 : Nat) (ops : List MutOp)
    (hops : ∀ op ∈ ops, mutOpOk op = true) :
    ∀ j, getJob (List.foldl (applyMut jobId)
          (createJob st jobId fileId userId t0).2 ops) jobId = some j →
      (j.status = "completed" → j.downloadUrl ≠ none) ∧
      (j.status = "failed" → j.error ≠ none) := by
  intro j hj
  simp only [getJob, Option.map_eq_some'] at hj
  obtain ⟨h', hh', hdec⟩ := hj
  have hinv : resultFieldsInv h' := by
    refine foldl_applyMut_resultFieldsInv jobId ops hops
      (createJob st jobId fileId userId t0).2 ?_ h' hh'
    intro h0 hh0
    simp only [createJob] at hh0
    rw [alookup_aset_self] at hh0
    cases hh0
    refine ⟨fun hc => ?_, fun hc => ?_⟩ <;>
      (simp only [encodeJobData] at hc; exact absurd hc (by decide))
  subst hdec
  constructor
  · intro hc
    have := hinv.1 hc
    simp [decodeJobHash, strOrNone, this]
  · intro hc
    have := hinv.2 hc
    simp [decodeJobHash, strOrNone, this]

/-- C7 witness: the amended theorem applied to the concrete
fail-retry-complete sequence. -/
theorem c7_witness :
    ((getJob (List.foldl (applyMut "J1")
        (createJob emptySysState "J1" 7 "u1" 0).2
        [MutOp.processing 1, MutOp.fail "network error" true (some 1) 2,
         MutOp.processing 3, MutOp.complete "https://s3/7" 4]) "J1").isSome) ∧
    (∀ j, getJob (List.foldl (applyMut "J1")
        (createJob emptySysState "J1" 7 "u1" 0).2
        [MutOp.processing 1, MutOp.fail "network error" true (some 1) 2,
         MutOp.processing 3, MutOp.complete "https://s3/7" 4]) "J1" = some j →
      (j.status = "completed" → j.downloadUrl ≠ none) ∧
      (j.status = "failed" → j.error ≠ none)) := by
  refine ⟨by decide, ?_⟩
  exact c7_result_fields emptySysState "J1" 7 "u1" 0
    [MutOp.processing 1, MutOp.fail "network error" true (some 1) 2,
     MutOp.processing 3, MutOp.complete "https://s3/7" 4]
    (by decide)

/-- C4 (spec-modelled sweep over the source's `getStuckJobs` selection): a job
record in `processing` whose processing-start timestamp is older than the
stuck threshold is, after one Watchdog sweep, either reset to `queued` with
`attempts+1` and re-enqueued, or force-failed with `canRetry=false`. -/
theorem c4_watchdog_recovery (st : SysState) (jobId : String) (h : RedisJobHash)
    (t now thr maxA : Nat)
    (hp : st.processing = [(jobId, t)])
    (ht : (t : Int) ≤ (now : Int) - (thr : Int))
    (hj : alookup st.jobs jobId = some h)
    (_hst : h.status = "processing") :
    ((getJob (watchdogSweep st now thr maxA) jobId).map JobData.status
        = some "queued" ∧
      (getJob (watchdogSweep st now thr maxA) jobId).map JobData.attempts
        = some (jsParseNatD h.attempts + 1) ∧
      ∃ e ∈ (watchdogSweep st now thr maxA).queue, e.jobId = jobId) ∨
    ((getJob (watchdogSweep st now thr maxA) jobId).map JobData.status
        = some "failed" ∧
      (getJob (watchdogSweep st now thr maxA) jobId).map JobData.canRetry
        = some false) := by
  have hsel : getStuckJobs st now thr = [jobId] := by
    unfold getStuckJobs
    rw [hp]
    simp [ht]
  have hsweep : watchdogSweep st now thr maxA = watchdogHandleStuck maxA now st jobId := by
    unfold watchdogSweep
    rw [hsel]
    rfl
  have hhandle : watchdogHandleStuck maxA now st jobId =
      if jsParseNatD h.attempts ≥ maxA then
        decrementUserActiveJobs
          (markJobFailed st jobId "stuck in processing beyond threshold" false none now)
          h.userId
      else
        addDownloadJob
          { updateJobStatus st jobId "queued"
              { attempts := some (jsParseNatD h.attempts + 1) } now with
            processing := zrem (updateJobStatus st jobId "queued"
              { attempts := some (jsParseNatD h.attempts + 1) } now).processing jobId }
          { jobId := jobId, fileId := jsParseNatD h.fileId, userId := h.userId
          , idempotencyKey := none, createdAt := now } := by
    unfold watchdogHandleStuck
    rw [hj]
  rw [hsweep, hhandle]
  by_cases hge : jsParseNatD h.attempts ≥ maxA
  · rw [if_pos hge]
    refine Or.inr ⟨?_, ?_⟩
    · simp only [decrementUserActiveJobs, markJobFailed, updateJobStatus, getJob]
      split <;> (rw [alookup_aset_self]; rfl)
    · simp only [decrementUserActiveJobs, markJobFailed, updateJobStatus, getJob]
      split <;>
        (rw [alookup_aset_self]
         simp [decodeJobHash, applyStatusUpdates, jsStringOfBool])
  · rw [if_neg hge]
    refine Or.inl ⟨?_, ?_, ?_⟩
    · simp only [addDownloadJob, updateJobStatus, getJob]
      rw [alookup_aset_self]
      rfl
    · simp only [addDownloadJob, updateJobStatus, getJob]
      rw [alookup_aset_self]
      simp only [Option.map_some']
      simp [decodeJobHash, applyStatusUpdates, jsParseNatD_jsStringOfNat]
    · exact ⟨{ jobId := jobId, fileId := jsParseNatD h.fileId, userId := h.userId
             , idempotencyKey := none, createdAt := now },
        List.mem_cons_self _ _, rfl⟩

/-- C4 witness: a concrete job stuck past the threshold (started at t=1,
swept at t=700000 with a 600000 ms threshold) with exhausted attempts; the
sweep settles it per the theorem's disjunction. -/
theorem c4_witness :
    (((getJob (watchdogSweep
        { jobs := [("J1", { id := "J1", fileId := "7", userId := "u1"
                          , status := "processing", progress := "50"
                          , downloadUrl := "", error := "", canRetry := "false"
                          , attempts := "3", createdAt := "0", updatedAt := "1" })]
        , idem := [], counters := [("u1", 1)], processing := [("J1", 1)]
        , queue := [], events := [] }
        700000 600000 3) "J1").map JobData.status = some "queued" ∧
      (getJob (watchdogSweep
        { jobs := [("J1", { id := "J1", fileId := "7", userId := "u1"
                          , status := "processing", progress := "50"
                          , downloadUrl := "", error := "", canRetry := "false"
                          , attempts := "3", createdAt := "0", updatedAt := "1" })]
        , idem := [], counters := [("u1", 1)], processing := [("J1", 1)]
        , queue := [], events := [] }
        700000 600000 3) "J1").map JobData.attempts = some 4 ∧
      ∃ e ∈ (watchdogSweep
        { jobs := [("J1", { id := "J1", fileId := "7", userId := "u1"
                          , status := "processing", progress := "50"
                          , downloadUrl := "", error := "", canRetry := "false"
                          , attempts := "3", createdAt := "0", updatedAt := "1" })]
        , idem := [], counters := [("u1", 1)], processing := [("J1", 1)]
        , queue := [], events := [] }
        700000 600000 3).queue, e.jobId = "J1") ∨
    ((getJob (watchdogSweep
        { jobs := [("J1", { id := "J1", fileId := "7", userId := "u1"
                          , status := "processing", progress := "50"
                          , downloadUrl := "", error := "", canRetry := "false"
                          , attempts := "3", createdAt := "0", updatedAt := "1" })]
        , idem := [], counters := [("u1", 1)], processing := [("J1", 1)]
        , queue := [], events := [] }
        700000 600000 3) "J1").map JobData.status = some "failed" ∧
      (getJob (watchdogSweep
        { jobs := [("J1", { id := "J1", fileId := "7", userId := "u1"
                          , status := "processing", progress := "50"
                          , downloadUrl := "", error := "", canRetry := "false"
                          , attempts := "3", createdAt := "0", updatedAt := "1" })]
        , idem := [], counters := [("u1", 1)], processing := [("J1", 1)]
        , queue := [], events := [] }
        700000 600000 3) "J1").map JobData.canRetry = some false)) := by
  have hbase := c4_watchdog_recovery
    { jobs := [("J1", { id := "J1", fileId := "7", userId := "u1"
                      , status := "processing", progress := "50"
                      , downloadUrl := "", error := "", canRetry := "false"
                      , attempts := "3", createdAt := "0", updatedAt := "1" })]
    , idem := [], counters := [("u1", 1)], processing := [("J1", 1)]
    , queue := [], events := [] }
    "J1"
    { id := "J1", fileId := "7", userId := "u1"
    , status := "processing", progress := "50"
    , downloadUrl := "", error := "", canRetry := "false"
    , attempts := "3", createdAt := "0", updatedAt := "1" }
    1 700000 600000 3 rfl (by decide) (by decide) rfl
  rcases hbase with ⟨hq, ha, he⟩ | hfail
  · exact Or.inl ⟨hq, by rw [ha]; decide, he⟩
  · exact Or.inr hfail

/-- C5: with a dedup token that has no existing entry and the owner under the
rate limit, the first `POST /v1/download` creates the job and answers
`isNew=true` with the fresh id; an immediately repeated call with the same
token answers the same job id with `isNew=false` and leaves the state exactly
unchanged (no job record, no idempotency write, no counter increment, no
enqueue). -/
theorem c5_idempotent_create (st : SysState) (tok : String) (fid : Nat)
    (j1 j2 : String) (t1 t2 : Nat) (xu xf xr : Option String) (maxC : Int)
    (hidem : checkIdempotencyKey st tok = none)
    (hrate : (checkUserRateLimit st (getUserId xu xf xr) maxC).1 = true) :
    (asyncDownloadHandler st fid (some tok) xu xf xr j1 t1 maxC).1
      = DlResponse.created j1 fid true t1 ∧
    asyncDownloadHandler (asyncDownloadHandler st fid (some tok) xu xf xr j1 t1 maxC).2
        fid (some tok) xu xf xr j2 t2 maxC
      = (DlResponse.replay j1 fid "queued" false t1,
         (asyncDownloadHandler st fid (some tok) xu xf xr j1 t1 maxC).2) := by
  have hstate : asyncDownloadHandler st fid (some tok) xu xf xr j1 t1 maxC
      = (DlResponse.created j1 fid true t1,
         addDownloadJob (incrementUserActiveJobs (setIdempotencyKey
             (createJob st j1 fid (getUserId xu xf xr) t1).2 tok j1)
             (getUserId xu xf xr))
           { jobId := j1, fileId := fid, userId := getUserId xu xf xr
           , idempotencyKey := some tok, createdAt := t1 }) := by
    simp only [asyncDownloadHandler, hidem, asyncDownloadCreate, hrate]
    rw [if_neg (by decide : ¬(true = false))]
  rw [hstate]
  refine ⟨rfl, ?_⟩
  have hidem4 : checkIdempotencyKey
      (addDownloadJob (incrementUserActiveJobs (setIdempotencyKey
          (createJob st j1 fid (getUserId xu xf xr) t1).2 tok j1)
          (getUserId xu xf xr))
        { jobId := j1, fileId := fid, userId := getUserId xu xf xr
        , idempotencyKey := some tok, createdAt := t1 }) tok = some j1 := by
    simp only [checkIdempotencyKey, addDownloadJob, incrementUserActiveJobs,
      setIdempotencyKey]
    exact alookup_aset_self _ _ _
  have hget4 : getJob
      (addDownloadJob (incrementUserActiveJobs (setIdempotencyKey
          (createJob st j1 fid (getUserId xu xf xr) t1).2 tok j1)
          (getUserId xu xf xr))
        { jobId := j1, fileId := fid, userId := getUserId xu xf xr
        , idempotencyKey := some tok, createdAt := t1 }) j1
      = some (createJob st j1 fid (getUserId xu xf xr) t1).1 :=
    getJob_createJob st j1 fid (getUserId xu xf xr) t1
  simp only [asyncDownloadHandler, hidem4, hget4]
  simp only [createJob]
  rfl

/-- C5 witness: the theorem at a concrete empty store. -/
theorem c5_witness :
    (asyncDownloadHandler emptySysState 70007 (some "t1") none none none "J1" 10 3).1
      = DlResponse.created "J1" 70007 true 10 ∧
    asyncDownloadHandler
        (asyncDownloadHandler emptySysState 70007 (some "t1") none none none "J1" 10 3).2
        70007 (some "t1") none none none "J2" 20 3
      = (DlResponse.replay "J1" 70007 "queued" false 10,
         (asyncDownloadHandler emptySysState 70007 (some "t1") none none none "J1" 10 3).2) :=
  c5_idempotent_create emptySysState "t1" 70007 "J1" "J2" 10 20 none none none 3
    (by decide) (by decide)

/-- C6: (a) when the owner's counter is at or over the configured maximum and
no idempotency replay applies, the handler answers 429 and mutates nothing;
(b) once one of the owner's jobs reaches a terminal non-retryable state (the
worker then runs `decrementUserActiveJobs`), a subsequent creation for that
owner succeeds. -/
theorem c6_rate_limit (st : SysState) (fid : Nat) (idemKey : Option String)
    (xu xf xr : Option String) (jA jB : String) (tA tB : Nat) (maxC : Int)
    (hidem : ∀ k, idemKey = some k → checkIdempotencyKey st k = none) :
    (maxC ≤ (alookup st.counters (getUserId xu xf xr)).getD 0 →
      asyncDownloadHandler st fid idemKey xu xf xr jA tA maxC
        = (DlResponse.rateLimited, st)) ∧
    ((alookup st.counters (getUserId xu xf xr)).getD 0 = maxC → 1 ≤ maxC →
      (asyncDownloadHandler (decrementUserActiveJobs st (getUserId xu xf xr))
          fid idemKey xu xf xr jB tB maxC).1
        = DlResponse.created jB fid true tB) := by
  constructor
  · intro hover
    have hallow : (checkUserRateLimit st (getUserId xu xf xr) maxC).1 = false := by
      simp only [checkUserRateLimit]
      simpa using hover
    cases idemKey with
    | none =>
      simp only [asyncDownloadHandler, asyncDownloadCreate, hallow]
      simp
    | some k =>
      have hk := hidem k rfl
      simp only [asyncDownloadHandler, hk, asyncDownloadCreate, hallow]
      simp
  · intro heq hmax
    have hread : (alookup (decrementUserActiveJobs st (getUserId xu xf xr)).counters
        (getUserId xu xf xr)).getD 0 = maxC - 1 := by
      simp only [decrementUserActiveJobs, heq]
      by_cases hle : maxC - 1 ≤ 0
      · rw [if_pos hle, alookup_adel_self]
        simp only [Option.getD_none]
        omega
      · rw [if_neg hle, alookup_aset_self]
        rfl
    have hallow : (checkUserRateLimit (decrementUserActiveJobs st (getUserId xu xf xr))
        (getUserId xu xf xr) maxC).1 = true := by
      simp only [checkUserRateLimit, hread]
      simp only [decide_eq_true_eq]
      omega
    have hidem' : ∀ k, idemKey = some k →
        checkIdempotencyKey (decrementUserActiveJobs st (getUserId xu xf xr)) k = none := by
      intro k hk
      have := hidem k hk
      simp only [checkIdempotencyKey, decrementUserActiveJobs] at this ⊢
      split <;> exact this
    cases idemKey with
    | none =>
      simp only [asyncDownloadHandler, asyncDownloadCreate, hallow]
      simp
    | some k =>
      have hk := hidem' k rfl
      simp only [asyncDownloadHandler, hk, asyncDownloadCreate, hallow]
      simp

/-- C6 witness: an anonymous owner with 3 of max 3 active jobs is refused with
no state change; after one terminal non-retryable job releases the slot, a
new creation succeeds. -/
theorem c6_witness :
    asyncDownloadHandler
        { jobs := [], idem := [], counters := [("anonymous", 3)]
        , processing := [], queue := [], events := [] }
        70007 none none none none "JA" 5 3
      = (DlResponse.rateLimited,
         { jobs := [], idem := [], counters := [("anonymous", 3)]
         , processing := [], queue := [], events := [] }) ∧
    (asyncDownloadHandler (decrementUserActiveJobs
        { jobs := [], idem := [], counters := [("anonymous", 3)]
        , processing := [], queue := [], events := [] } "anonymous")
        70007 none none none none "JB" 6 3).1
      = DlResponse.created "JB" 70007 true 6 := by
  have hbase := c6_rate_limit
    { jobs := [], idem := [], counters := [("anonymous", 3)]
    , processing := [], queue := [], events := [] }
    70007 none none none none "JA" "JB" 5 6 3
    (fun k hk => by cases hk)
  exact ⟨hbase.1 (by decide), hbase.2 (by decide) (by decide)⟩

/-! ## Counter operation sequences (C8) -/

/-- One counter operation: `incrementUserActiveJobs` (on creation) or
`decrementUserActiveJobs` (on terminal completion/failure), against some
owner. -/
inductive RateOp where
  | inc (userId : String)
  | dec (userId : String)
deriving DecidableEq, Repr

def applyRateOp (st : SysState) : RateOp → SysState
  | RateOp.inc uid => incrementUserActiveJobs st uid
  | RateOp.dec uid => decrementUserActiveJobs st uid

/-- A stored counter value is always at least 1 (values ≤ 0 are deleted, not
stored). -/
def countersPos (st : SysState) : Prop :=
  ∀ uid v, alookup st.counters uid = some v → 1 ≤ v

theorem applyRateOp_countersPos (st : SysState) (op : RateOp)
    (hinv : countersPos st) : countersPos (applyRateOp st op) := by
  cases op with
  | inc uid' =>
    intro uid v hv
    simp only [applyRateOp, incrementUserActiveJobs] at hv
    by_cases huid : uid = uid'
    · subst huid
      rw [alookup_aset_self] at hv
      cases hv
      cases hold : alookup st.counters uid with
      | none => simp
      | some w =>
        have := hinv uid w hold
        simp only [Option.getD_some]
        omega
    · rw [alookup_aset_ne _ _ _ _ huid] at hv
      exact hinv uid v hv
  | dec uid' =>
    intro uid v hv
    simp only [applyRateOp, decrementUserActiveJobs] at hv
    by_cases huid : uid = uid'
    · subst huid
      split at hv
      · rw [alookup_adel_self] at hv
        cases hv
      · rename_i hgt
        rw [alookup_aset_self] at hv
        cases hv
        omega
    · split at hv
      · rw [alookup_adel_ne _ _ _ huid] at hv
        exact hinv uid v hv
      · rw [alookup_aset_ne _ _ _ _ huid] at hv
        exact hinv uid v hv

theorem foldl_applyRateOp_countersPos (ops : List RateOp) :
    ∀ st : SysState, countersPos st →
      countersPos (List.foldl applyRateOp st ops) := by
  induction ops with
  | nil => intro st h; exact h
  | cons op ops ih =>
    intro st h
    exact ih (applyRateOp st op) (applyRateOp_countersPos st op h)

/-- C8: along any sequence of per-owner increments and decrements starting
from an empty store, the counter value a rate-limit check observes is never
negative; and a decrement that would cross to zero or below deletes the key
(the floor-to-zero-and-delete). -/
theorem c8_counter_never_negative (ops : List RateOp) (uid : String) (maxConc : Int) :
    0 ≤ (checkUserRateLimit (List.foldl applyRateOp emptySysState ops) uid maxConc).2 ∧
    ((alookup (List.foldl applyRateOp emptySysState ops).counters uid).getD 0 - 1 ≤ 0 →
      alookup (decrementUserActiveJobs
        (List.foldl applyRateOp emptySysState ops) uid).counters uid = none) := by
  have hpos : countersPos (List.foldl applyRateOp emptySysState ops) := by
    refine foldl_applyRateOp_countersPos ops emptySysState ?_
    intro u v hv
    simp [emptySysState, alookup] at hv
  constructor
  · simp only [checkUserRateLimit]
    cases hold : alookup (List.foldl applyRateOp emptySysState ops).counters uid with
    | none => simp
    | some v =>
      have := hpos uid v hold
      simp only [Option.getD_some]
      omega
  · intro hle
    simp only [decrementUserActiveJobs]
    rw [if_pos hle]
    exact alookup_adel_self _ _

/-- C10: a creation request carrying none of `x-user-id`, `x-forwarded-for`
or `x-real-ip` is attributed to the constant owner `"anonymous"`, so all such
callers share a single concurrency counter: an increment performed for one
header-less caller is observed by the rate-limit check of any other
header-less caller. -/
theorem c10_anonymous_shared_counter (st : SysState) (maxConc : Int) :
    getUserId none none none = "anonymous" ∧
    (checkUserRateLimit (incrementUserActiveJobs st (getUserId none none none))
        (getUserId none none none) maxConc).2
      = (checkUserRateLimit st "anonymous" maxConc).2 + 1 := by
  refine ⟨rfl, ?_⟩
  simp only [checkUserRateLimit, incrementUserActiveJobs, getUserId]
  rw [alookup_aset_self]
  rfl
